import Mathlib

/-!
Verification of `resolve-url-loader` (packages/resolve-url-loader/index.js).

The orchestrator (`resolveUrlLoader`) is embedded as an executable Lean
function over an explicit environment that stands for the loader's external
collaborators (filesystem probes, the `adjust-sourcemap-loader` codec,
`SourceMapConsumer` construction, JSON parsing, and the pluggable CSS
engine).  The per-declaration transform (the rework engine together with
`lib/value-processor` / `lib/default-join`, whose sources are not part of
this excerpt) is modelled from the specification in a second group of
definitions, each marked as such.
-/

set_option autoImplicit false

/-- Severity of a diagnostic pushed to the host build tool: `emitError`
versus `emitWarning` in `index.js`. -/
inductive Severity where
  | error
  | warning
deriving DecidableEq

/-- One diagnostic delivered through the host diagnostics channel. -/
structure Diagnostic where
  sev : Severity
  message : String
deriving DecidableEq

/-- An abstract token standing for a parsed source-map object.  The loader
never inspects the map itself; it only hands it to the external codec and to
`SourceMapConsumer`, so an opaque identifier suffices. -/
structure SMap where
  id : Nat
deriving DecidableEq

/-- The `sourceMap` argument of the loader: either a JSON string (the
non-standard encoding produced by less-loader) or an already-parsed object. -/
inductive SMInput where
  | str (s : String)
  | obj (m : SMap)

/-- A JavaScript exception value as seen by `handleException`: absent, a
plain string, an `Error` instance (message plus its `stack` string), or any
other thrown value. -/
inductive ExcVal where
  | noExc
  | str (s : String)
  | err (message : String) (stack : String)
  | other

/-- The value a CSS engine resolves with: reworked content plus, when an
output source-map was requested, the engine's internal map. -/
structure Reworked where
  content : String
  map : Option SMap

/-- The arguments `index.js` passes to the chosen engine module (the
transform callback and the source-map consumer are abstracted away: the
engine is an opaque collaborator of the orchestrator). -/
structure EngineInput where
  resourcePath : String
  content : String
  outputSourceMap : Bool
  absSourceMap : Option SMap

/-- The external collaborators of the orchestrator, as pure functions.
`adjustAbs` is the codec run with `format: absolute` (its exception message
is what the caller consumes); `smcThrow` models whether constructing
`new SourceMapConsumer` on the adjusted map throws (this call has no
surrounding try/catch in `index.js`); `engine` is the promise produced by
the engine module; `adjustRel` is the codec run with
`format: sourceRelative` inside `onSuccess`. -/
structure Env where
  jsonParse : String → Option SMap
  adjustAbs : SMap → Except String SMap
  smcThrow : SMap → Option String
  engineExists : String → Bool
  rootIsValidDir : String → Bool
  engine : EngineInput → Except ExcVal Reworked
  adjustRel : Option SMap → Except ExcVal SMap

/-- The webpack loader context fields `index.js` reads. -/
structure LoaderCtx where
  context : String
  resourcePath : String

/-- The `join` option after option merging: the bundled `defaultJoin`
function, some other function, or a non-function value. -/
inductive JoinOpt where
  | default
  | custom (id : Nat)
  | nonFunction
deriving DecidableEq

/-- True when the `join` option would satisfy `typeof options.join === "function"`. -/
def JoinOpt.isFunction : JoinOpt → Bool
  | .nonFunction => false
  | _ => true

/-- The merged options object (defaults already applied, as by `defaults(...)`
at the top of `resolveUrlLoader`). -/
structure Options where
  absolute : Bool
  sourceMap : Bool
  engine : String
  fail : Bool
  silent : Bool
  keepQuery : Bool
  attempts : Int
  join : JoinOpt
  debug : Bool
  root : Option String
  includeRoot : Bool

/-- What one invocation of the loader ultimately does: deliver content (with
an optional output map and the emitted diagnostics), or let an exception
escape the loader boundary (equivalently, in the async stage, fail to ever
invoke the webpack callback). -/
inductive Outcome where
  | done (content : String) (map : Option SMap) (diags : List Diagnostic)
  | thrown (msg : String)
deriving DecidableEq

/-- True when the loader completed by delivering content. -/
def Outcome.isDone : Outcome → Bool
  | .done .. => true
  | .thrown _ => false

/-- True when the string begins with a dot, i.e. the regex test at the top
of `resolveUrlLoader` that detects a relative `loader.context`. -/
def startsWithDot (s : String) : Bool :=
  match s.data with
  | '.' :: _ => true
  | _ => false

/-- True when the string starts with a word character, i.e. the engine-name
test against the JavaScript regex for a leading word character. -/
def startsWordChar (s : String) : Bool :=
  match s.data with
  | c :: _ => c.isAlphanum || c == '_'
  | [] => false

/-- JavaScript truthiness of the `root` option (a string option: the empty
string is falsy, so an empty `root` skips the validity check). -/
def rootTruthy : Option String → Bool
  | none => false
  | some s => s != ""

/-- Whether `path.resolve(root)` exists and is a directory, per the
`isValidRoot` computation in `index.js`. -/
def rootValid (env : Env) : Option String → Bool
  | none => false
  | some s => env.rootIsValidDir s

/-- Whether the `engine` option names an engine module that exists on disk
(a leading word character is required for a path to be built at all). -/
def validEngine (env : Env) (engine : String) : Bool :=
  startsWordChar engine && env.engineExists engine

/-- Splits a character list at every occurrence of the separator, matching
the semantics of JavaScript `String.prototype.split` with a single-character
separator. -/
def splitOnChar (sep : Char) : List Char → List (List Char)
  | [] => [[]]
  | c :: rest =>
    let r := splitOnChar sep rest
    if c == sep then [] :: r
    else
      match r with
      | [] => [[c]]
      | h :: t => (c :: h) :: t

/-- Strips leading and trailing whitespace, as JavaScript `trim`. -/
def trimChars (cs : List Char) : List Char :=
  ((cs.dropWhile Char.isWhitespace).reverse.dropWhile Char.isWhitespace).reverse

/-- The second line of a stack string, trimmed: `stack.split('\n')[1].trim()`.
Returns `none` exactly when the stack has a single line, in which case the
indexing yields `undefined` and the `.trim()` call throws a `TypeError`. -/
def stackSecondLine (stack : String) : Option String :=
  match splitOnChar '\x0a' stack.data with
  | _ :: l :: _ => some (String.mk (trimChars l))
  | _ => none

/-- The `rest` array computed at the top of `handleException`.  For an
`Error` whose stack has no second line the computation itself throws; the
error case carries the thrown `TypeError` message. -/
def formatRest : ExcVal → Except String (List String)
  | .noExc => .ok []
  | .str s => .ok [s]
  | .err m st =>
    match stackSecondLine st with
    | some l => .ok [m, l]
    | none => .error "TypeError: Cannot read properties of undefined (reading 'trim')"
  | .other => .ok []

/-- The message assembled by `handleException`: label and details joined,
with falsy (empty) parts filtered out. -/
def excMessage (label : String) (rest : List String) : String :=
  "  resolve-url-loader cannot operate: " ++
    String.intercalate "\x0a  " ((label :: rest).filter (fun s => s != ""))

/-- The diagnostics `handleException` pushes: an error when the condition is
critical or `fail` is set, else a warning unless `silent` is set. -/
def emitDiags (opts : Options) (isCritical : Bool) (message : String) : List Diagnostic :=
  if isCritical || opts.fail then [⟨.error, message⟩]
  else if !opts.silent then [⟨.warning, message⟩]
  else []

/-- `handleException`: formats the exception (which can itself throw, see
`formatRest`), emits at most one diagnostic, and returns the original
content. -/
def handleException (opts : Options) (content : String) (label : String)
    (exc : ExcVal) (isCritical : Bool) : Except String (String × List Diagnostic) :=
  match formatRest exc with
  | .error m => .error m
  | .ok rest => .ok (content, emitDiags opts isCritical (excMessage label rest))

/-- Message for a relative `loader.context`. -/
def msgContextRelative : String :=
  excMessage "webpack misconfiguration" ["loader.context is relative, expected absolute"]

/-- Message for the discontinued `attempts` option. -/
def msgAttempts : String :=
  excMessage "loader misconfiguration" ["\"attempts\" option now requires \"join\" function"]

/-- Message for a non-function `join` option. -/
def msgJoin : String :=
  excMessage "loader misconfiguration" ["\"join\" option must be a Function"]

/-- Message for an invalid `root` option. -/
def msgRoot : String :=
  excMessage "loader misconfiguration" ["\"root\" option does not resolve to a valid directory"]

/-- Message for an invalid `engine` option. -/
def msgEngine : String :=
  excMessage "loader misconfiguration" ["\"engine\" option is not valid"]

/-- Message for an unparseable string source-map. -/
def msgParse : String :=
  excMessage "source-map error" ["cannot parse source-map string (from less-loader?)"]

/-- JavaScript truthiness of the incoming `sourceMap` argument (an empty
string is falsy and skips the whole source-map block). -/
def smTruthy : Option SMInput → Bool
  | none => false
  | some (.str s) => s != ""
  | some (.obj _) => true

/-- The tail of the source-map block: adjust the parsed map to absolute
format (a codec exception is caught and reported softly with the
exception's message), then build the `SourceMapConsumer`, whose constructor
is not guarded by any try/catch, so a throw there escapes the loader. -/
def smAdjust (env : Env) (opts : Options) (content : String) (m : SMap) :
    Except Outcome (Option SMap) :=
  match env.adjustAbs m with
  | .error msg =>
    .error (.done content none (emitDiags opts false (excMessage "source-map error" [msg])))
  | .ok abs =>
    match env.smcThrow abs with
    | some tmsg => .error (.thrown tmsg)
    | none => .ok (some abs)

/-- The source-map block of `resolveUrlLoader` (lines 81-105): absent or
falsy maps are skipped; string maps are JSON-parsed with a soft
`source-map error` on failure; then `smAdjust` runs. -/
def smStage (env : Env) (opts : Options) (content : String) (sm : Option SMInput) :
    Except Outcome (Option SMap) :=
  match sm with
  | none => .ok none
  | some (.str s) =>
    if s == "" then .ok none
    else
      match env.jsonParse s with
      | none => .error (.done content none (emitDiags opts false msgParse))
      | some m => smAdjust env opts content m
  | some (.obj m) => smAdjust env opts content m

/-- `onFailure`: report the engine's rejection value through
`handleException` (label `Error in CSS`, not critical) and deliver the
original content; when the handler itself throws, the webpack callback is
never invoked. -/
def onFailure (opts : Options) (content : String) (e : ExcVal) : Outcome :=
  match handleException opts content "Error in CSS" e false with
  | .ok (c, ds) => .done c none ds
  | .error m => .thrown m

/-- The async stage (lines 114-140): run the engine; on success deliver the
reworked content, adjusting the produced map to source-relative format when
an output map was requested (a throw inside `onSuccess` is caught by the
promise `catch` and routed through `onFailure`); on rejection run
`onFailure`. -/
def runEngineStage (env : Env) (ctx : LoaderCtx) (opts : Options) (content : String)
    (absMap : Option SMap) : Outcome :=
  match env.engine ⟨ctx.resourcePath, content, opts.sourceMap, absMap⟩ with
  | .error e => onFailure opts content e
  | .ok r =>
    if opts.sourceMap then
      match env.adjustRel r.map with
      | .ok fm => .done r.content (some fm) []
      | .error e => onFailure opts content e
    else .done r.content none []

/-- The whole of `resolveUrlLoader`: the relative-context guard, the three
option validations, the source-map block, the engine validation, and the
async engine stage, in source order. -/
def runLoader (env : Env) (ctx : LoaderCtx) (opts : Options) (content : String)
    (sm : Option SMInput) : Outcome :=
  if startsWithDot ctx.context then
    .done content none (emitDiags opts true msgContextRelative)
  else if opts.join == JoinOpt.default && opts.attempts != 1 then
    .done content none (emitDiags opts true msgAttempts)
  else if !opts.join.isFunction then
    .done content none (emitDiags opts true msgJoin)
  else if rootTruthy opts.root && !rootValid env opts.root then
    .done content none (emitDiags opts true msgRoot)
  else
    match smStage env opts content sm with
    | .error out => out
    | .ok absMap =>
      if !validEngine env opts.engine then
        .done content none (emitDiags opts true msgEngine)
      else
        runEngineStage env ctx opts content absMap

/-- Modelled from the spec: position in generated CSS text (the sources of
`lib/value-processor` are not part of this excerpt). -/
structure Position where
  line : Nat
  column : Nat
deriving DecidableEq

/-- Modelled from the spec: an original location recovered by a source-map
lookup. -/
structure OriginalLocation where
  absoluteFilePath : String
  line : Nat
  column : Nat

/-- Modelled from the spec: a single path literal found inside a `url(...)`
pattern. -/
structure UrlToken where
  rawText : String
  quoted : Bool
deriving DecidableEq

/-- True when the remaining characters continue a URI scheme and reach a
colon. -/
def schemeTail : List Char → Bool
  | [] => false
  | c :: rest =>
    if c == ':' then true
    else (c.isAlphanum || c == '+' || c == '.' || c == '-') && schemeTail rest

/-- True when the string begins with a URI scheme such as `data:` or
`http:`. -/
def hasScheme (s : String) : Bool :=
  match s.data with
  | [] => false
  | c :: rest => c.isAlpha && schemeTail rest

/-- True when the string begins with `//` (a protocol-relative URL). -/
def startsSlashSlash (s : String) : Bool :=
  match s.data with
  | '/' :: '/' :: _ => true
  | _ => false

/-- True when the string begins with `/` (an absolute filesystem path). -/
def startsSlash (s : String) : Bool :=
  match s.data with
  | '/' :: _ => true
  | _ => false

/-- Modelled from the spec: the step-1 test of the path resolver — the token
is an absolute URL (has a protocol scheme or is protocol-relative) or an
already-absolute filesystem path. -/
def isAbsoluteUrl (s : String) : Bool :=
  hasScheme s || startsSlashSlash s || startsSlash s

/-- The directory part of a path, as `path.dirname`. -/
def dirname (s : String) : String :=
  match s.data.reverse.dropWhile (fun c => c != '/') with
  | [] => "."
  | _ :: rest => if rest.isEmpty then "/" else String.mk rest.reverse

/-- Naive join of a directory and a relative path. -/
def joinPath (d p : String) : String :=
  match d.data.reverse with
  | '/' :: _ => d ++ p
  | _ => d ++ "/" ++ p

/-- Splits a token at the first `?` or `#` into path part and query/hash
suffix. -/
def splitQueryChars : List Char → List Char × List Char
  | [] => ([], [])
  | c :: rest =>
    if c == '?' || c == '#' then ([], c :: rest)
    else
      let (p, q) := splitQueryChars rest
      (c :: p, q)

/-- Modelled from the spec: the resolution context of the path resolver
(`lib/value-processor` options), with the pluggable join strategy as a
function from original directory, path part and candidate list to a
resolved path or `none` for Unresolved. -/
structure ResolutionContext where
  root : Option String
  includeRoot : Bool
  keepQuery : Bool
  join : String → String → List String → Option String

/-- Modelled from the spec: the default join strategy returns the naive
join (the head candidate) verbatim, regardless of existence. -/
def defaultJoinStrategy : String → String → List String → Option String :=
  fun _ _ candidates => candidates.head?

/-- Modelled from the spec: the path resolver of section 4.2 — absolute
URLs and absolute paths pass through unchanged; otherwise the naive join
(and optionally a root-based candidate) is offered to the join strategy,
and the query/hash suffix is re-appended only under `keepQuery`. -/
def resolveUrl (originalDirectory : String) (tok : UrlToken) (ctx : ResolutionContext) :
    Option String :=
  if isAbsoluteUrl tok.rawText then some tok.rawText
  else
    let pq := splitQueryChars tok.rawText.data
    let pathPart := String.mk pq.1
    let suffix := String.mk pq.2
    let naive := joinPath originalDirectory pathPart
    let candidates := naive ::
      (match ctx.root with
       | some r => if ctx.includeRoot then [joinPath r pathPart] else []
       | none => [])
    match ctx.join originalDirectory pathPart candidates with
    | some p => some (if ctx.keepQuery then p ++ suffix else p)
    | none => none

/-- Modelled from the spec: the per-token transform of section 4.3 — with
no source-map at all the token is left unmodified with no diagnostic; with
a map, a failed lookup or a failed resolution leaves the token unmodified
and raises a soft diagnostic; a successful resolution rewrites the token. -/
def transformToken (lookup : Option (Position → Option OriginalLocation))
    (ctx : ResolutionContext) (pos : Position) (tok : UrlToken) :
    String × List String :=
  match lookup with
  | none => (tok.rawText, [])
  | some locate =>
    match locate pos with
    | none => (tok.rawText, ["cannot map token at position"])
    | some loc =>
      match resolveUrl (dirname loc.absoluteFilePath) tok ctx with
      | some p => (p, [])
      | none => (tok.rawText, ["cannot resolve token"])

/-- Modelled from the spec: a CSS document as seen by the declaration
transformer — literal text interleaved with `url(...)` tokens, each token
carrying its generated position. -/
inductive Seg where
  | text (s : String)
  | url (pos : Position) (tok : UrlToken)

/-- Renders one token back into `url(...)` syntax, preserving the quoting
style. -/
def renderTok (quoted : Bool) (v : String) : String :=
  if quoted then "url(\"" ++ v ++ "\")" else "url(" ++ v ++ ")"

/-- Renders one document segment. -/
def renderSeg : Seg → String
  | .text s => s
  | .url _ t => renderTok t.quoted t.rawText

/-- Renders a whole document. -/
def renderDoc (d : List Seg) : String :=
  String.join (d.map renderSeg)

/-- Modelled from the spec: the document-level transform — every `url(...)`
token goes through `transformToken`, everything else is preserved
byte-for-byte; diagnostics are accumulated in document order. -/
def transformDoc (lookup : Option (Position → Option OriginalLocation))
    (ctx : ResolutionContext) : List Seg → List Seg × List String
  | [] => ([], [])
  | s :: rest =>
    let r := transformDoc lookup ctx rest
    match s with
    | .text t => (.text t :: r.1, r.2)
    | .url pos tok =>
      let v := transformToken lookup ctx pos tok
      (.url pos ⟨v.1, tok.quoted⟩ :: r.1, v.2 ++ r.2)

/-- True when every token of the document is an absolute URL or an absolute
path. -/
def allAbsolute (d : List Seg) : Bool :=
  d.all (fun s =>
    match s with
    | .text _ => true
    | .url _ t => isAbsoluteUrl t.rawText)

/-- The four option validations of `resolveUrlLoader` seen as one predicate:
the discontinued `attempts` combination, a non-function `join`, an invalid
`root`, or an invalid `engine`. -/
def isMisconfiguration (env : Env) (opts : Options) : Bool :=
  (opts.join == JoinOpt.default && opts.attempts != 1) ||
  !opts.join.isFunction ||
  (rootTruthy opts.root && !rootValid env opts.root) ||
  !validEngine env opts.engine

/-- True when the source-map block completes without short-circuiting. -/
def smStageOk (env : Env) (opts : Options) (content : String) (sm : Option SMInput) : Bool :=
  match smStage env opts content sm with
  | .ok _ => true
  | .error _ => false

/-- True when the relative-context guard and the `attempts`, `join` and
`root` validations all pass, so control reaches the source-map block. -/
def preChecksPass (env : Env) (ctx : LoaderCtx) (opts : Options) : Bool :=
  !startsWithDot ctx.context &&
  !(opts.join == JoinOpt.default && opts.attempts != 1) &&
  opts.join.isFunction &&
  !(rootTruthy opts.root && !rootValid env opts.root)

/-- True when `handleException` can format this exception value without
itself throwing (a string, a non-Error value, or an Error whose stack has a
second line). -/
def excWellFormed (e : ExcVal) : Bool :=
  match formatRest e with
  | .ok _ => true
  | .error _ => false

/-- True when processing this particular map cannot throw: either the codec
rejects it (which is caught), or `SourceMapConsumer` construction succeeds. -/
def adjNoThrow (env : Env) (m : SMap) : Bool :=
  match env.adjustAbs m with
  | .error _ => true
  | .ok abs => (env.smcThrow abs).isNone

/-- True when the source-map block cannot throw for this input. -/
def smNoThrow (env : Env) (sm : Option SMInput) : Bool :=
  match sm with
  | none => true
  | some (.str s) =>
    if s == "" then true
    else
      match env.jsonParse s with
      | none => true
      | some m => adjNoThrow env m
  | some (.obj m) => adjNoThrow env m

/-- True when any failure value produced by the engine stage for this input
is one `handleException` can format without throwing. -/
def engineExcsWellFormed (env : Env) (ctx : LoaderCtx) (opts : Options) (content : String)
    (absMap : Option SMap) : Bool :=
  match env.engine ⟨ctx.resourcePath, content, opts.sourceMap, absMap⟩ with
  | .error e => excWellFormed e
  | .ok r =>
    if opts.sourceMap then
      match env.adjustRel r.map with
      | .error e => excWellFormed e
      | .ok _ => true
    else true

/-- A benign environment: every collaborator succeeds and the engine echoes
its input content. -/
def okEnv : Env where
  jsonParse := fun _ => some ⟨0⟩
  adjustAbs := fun m => .ok m
  smcThrow := fun _ => none
  engineExists := fun _ => true
  rootIsValidDir := fun _ => true
  engine := fun i => .ok ⟨i.content, some ⟨1⟩⟩
  adjustRel := fun _ => .ok ⟨2⟩

/-- A loader context with absolute paths. -/
def okCtx : LoaderCtx := ⟨"/proj/src", "/proj/src/styles.scss"⟩

/-- The default options, as merged by `resolveUrlLoader`. -/
def okOpts : Options where
  absolute := false
  sourceMap := false
  engine := "rework"
  fail := false
  silent := false
  keepQuery := false
  attempts := 1
  join := .default
  debug := false
  root := none
  includeRoot := false

/-- An environment whose engine rewrites the document to a fixed string. -/
def rewriteEnv : Env := { okEnv with engine := fun _ => .ok ⟨"TRANSFORMED", none⟩ }

/-- An environment where JSON parsing of a string source-map fails. -/
def jsonFailEnv : Env := { okEnv with jsonParse := fun _ => none }

/-- An environment where both JSON parsing and the engine-module existence
probe fail. -/
def badEngineEnv : Env :=
  { okEnv with jsonParse := fun _ => none, engineExists := fun _ => false }

/-- An environment where `SourceMapConsumer` construction throws. -/
def smcThrowEnv : Env := { okEnv with smcThrow := fun _ => some "SourceMapConsumer: boom" }

/-- An environment where the root-directory probe fails. -/
def badRootEnv : Env := { okEnv with rootIsValidDir := fun _ => false }

/-- An environment whose engine rejects with an Error whose stack string has
no second line. -/
def badStackEnv : Env :=
  { okEnv with engine := fun _ => .error (.err "boom" "Error: boom") }

/-- An environment whose engine rejects with a plain string. -/
def engineFailEnv : Env := { okEnv with engine := fun _ => .error (.str "engine blew up") }

/-- A resolution context using the default join strategy. -/
def okResolutionCtx : ResolutionContext where
  root := none
  includeRoot := false
  keepQuery := false
  join := defaultJoinStrategy

/-- A lookup that maps every generated position to a fixed original file. -/
def constLookup : Position → Option OriginalLocation :=
  fun _ => some ⟨"/proj/src/partials/chunk.scss", 1, 0⟩

/-- True when every failure value reaching the exception handler during the
engine stage of this particular run can be formatted without the handler
throwing; the check is evaluated at the source-map actually produced by the
source-map block for this input, not at arbitrary maps. -/
def engineStageWellFormed (env : Env) (ctx : LoaderCtx) (opts : Options) (content : String)
    (sm : Option SMInput) : Bool :=
  match smStage env opts content sm with
  | .error _ => true
  | .ok absMap => engineExcsWellFormed env ctx opts content absMap

/-- An environment where the codec run with `format: absolute` rejects
every map handed to it. -/
def adjustFailEnv : Env := { okEnv with adjustAbs := fun _ => .error "codec rejected map" }

/-- The two soft failure cases of the source-map block, with the message
each produces: the string map fails to parse as JSON, or the codec rejects
the parsed (or directly supplied object) map with some exception message. -/
def smSoftError (env : Env) (sm : SMInput) (msg : String) : Prop :=
  (∃ s, sm = .str s ∧ s ≠ "" ∧ env.jsonParse s = none ∧ msg = msgParse) ∨
  (∃ m emsg, (sm = .obj m ∨ ∃ s, sm = .str s ∧ s ≠ "" ∧ env.jsonParse s = some m) ∧
    env.adjustAbs m = .error emsg ∧ msg = excMessage "source-map error" [emsg])

theorem transformDoc_none (ctx : ResolutionContext) (d : List Seg) :
    transformDoc none ctx d = (d, []) := by
  induction d with
  | nil => rfl
  | cons s rest ih =>
    cases s with
    | text t => simp [transformDoc, ih]
    | url pos tok => simp [transformDoc, ih, transformToken]

theorem onFailure_isDone (opts : Options) (content : String) (e : ExcVal)
    (h : excWellFormed e = true) : (onFailure opts content e).isDone = true := by
  unfold excWellFormed at h
  rcases hf : formatRest e with m | rest
  · try rw [hf] at h
    simp at h
  · simp [onFailure, handleException, hf, Outcome.isDone]

theorem smAdjust_cases (env : Env) (opts : Options) (content : String) (m : SMap)
    (h : adjNoThrow env m = true) :
    (∃ ds, smAdjust env opts content m = .error (.done content none ds)) ∨
    (∃ abs, smAdjust env opts content m = .ok (some abs)) := by
  unfold adjNoThrow at h
  rcases ha : env.adjustAbs m with msg | abs
  · exact .inl ⟨emitDiags opts false (excMessage "source-map error" [msg]), by simp [smAdjust, ha]⟩
  · try rw [ha] at h
    simp only [ha] at h
    have h2 : (env.smcThrow abs).isNone = true := by simpa using h
    have hn : env.smcThrow abs = none := Option.isNone_iff_eq_none.mp h2
    exact .inr ⟨abs, by simp [smAdjust, ha, hn]⟩

theorem smStage_noThrow (env : Env) (opts : Options) (content : String) (sm : Option SMInput)
    (h : smNoThrow env sm = true) :
    (∃ ds, smStage env opts content sm = .error (.done content none ds)) ∨
    (∃ absMap, smStage env opts content sm = .ok absMap) := by
  cases sm with
  | none => exact .inr ⟨none, rfl⟩
  | some si =>
    cases si with
    | obj m =>
      simp only [smNoThrow] at h
      rcases smAdjust_cases env opts content m h with ⟨ds, ha⟩ | ⟨abs, ha⟩
      · exact .inl ⟨ds, by simpa [smStage] using ha⟩
      · exact .inr ⟨some abs, by simpa [smStage] using ha⟩
    | str s =>
      cases hs : (s == "") with
      | true => exact .inr ⟨none, by simp [smStage, hs]⟩
      | false =>
        simp only [smNoThrow, hs, Bool.false_eq_true, if_false] at h
        cases hp : env.jsonParse s with
        | none => exact .inl ⟨emitDiags opts false msgParse, by simp [smStage, hs, hp]⟩
        | some m =>
          rw [hp] at h
          simp only at h
          rcases smAdjust_cases env opts content m (by simpa using h) with ⟨ds, ha⟩ | ⟨abs, ha⟩
          · exact .inl ⟨ds, by simp [smStage, hs, hp, ha]⟩
          · exact .inr ⟨some abs, by simp [smStage, hs, hp, ha]⟩

theorem runEngineStage_isDone (env : Env) (ctx : LoaderCtx) (opts : Options)
    (content : String) (absMap : Option SMap)
    (h : engineExcsWellFormed env ctx opts content absMap = true) :
    (runEngineStage env ctx opts content absMap).isDone = true := by
  unfold engineExcsWellFormed at h
  rcases he : env.engine ⟨ctx.resourcePath, content, opts.sourceMap, absMap⟩ with e | r
  · try rw [he] at h
    simp only [he] at h
    have hw : excWellFormed e = true := by simpa using h
    have : runEngineStage env ctx opts content absMap = onFailure opts content e := by
      simp [runEngineStage, he]
    rw [this]
    exact onFailure_isDone opts content e hw
  · try rw [he] at h
    simp only [he] at h
    cases hs : opts.sourceMap with
    | false =>
      unfold runEngineStage
      rw [he]
      simp [hs, Outcome.isDone]
    | true =>
      simp only [hs, if_true] at h
      rcases hr : env.adjustRel r.map with e | fm
      · try rw [hr] at h
        simp only [hr] at h
        have hw : excWellFormed e = true := by simpa using h
        unfold runEngineStage
        rw [he]
        simp only [hs, if_true]
        rw [hr]
        exact onFailure_isDone opts content e hw
      · unfold runEngineStage
        rw [he]
        simp [hs, hr, Outcome.isDone]

/-- Claim C2: with no source-map supplied the document transform leaves the
rendered content unchanged and raises no diagnostics. -/
theorem claim_C2 (ctx : ResolutionContext) (d : List Seg) :
    renderDoc (transformDoc none ctx d).1 = renderDoc d ∧
    (transformDoc none ctx d).2 = [] := by
  rw [transformDoc_none]
  exact ⟨rfl, rfl⟩

/-- Claim C3: a token whose value is an absolute URL (protocol scheme,
protocol-relative, or absolute filesystem path) is never rewritten by the
per-token transform, with or without a source-map. -/
theorem claim_C3 (lookup : Option (Position → Option OriginalLocation))
    (ctx : ResolutionContext) (pos : Position) (tok : UrlToken)
    (h : isAbsoluteUrl tok.rawText = true) :
    (transformToken lookup ctx pos tok).1 = tok.rawText := by
  cases lookup with
  | none => rfl
  | some locate =>
    cases hl : locate pos with
    | none => simp [transformToken, hl]
    | some loc => simp [transformToken, hl, resolveUrl, h]

/-- Witness for C3 at a concrete protocol URL, with a source-map present
and a successful lookup. -/
theorem claim_C3_witness :
    isAbsoluteUrl (UrlToken.mk "http://cdn/x.png" false).rawText = true ∧
    (transformToken (some constLookup) okResolutionCtx ⟨3, 10⟩ ⟨"http://cdn/x.png", false⟩).1 =
      (UrlToken.mk "http://cdn/x.png" false).rawText :=
  ⟨by decide,
   claim_C3 (some constLookup) okResolutionCtx ⟨3, 10⟩ ⟨"http://cdn/x.png", false⟩ (by decide)⟩

/-- Claim C9: applying the transform a second time, with the second pass
given no source-map, to output whose tokens are all already resolved to
absolute paths or protocol URLs, yields exactly the content of the first
pass. -/
theorem claim_C9 (locate : Position → Option OriginalLocation)
    (ctx ctx2 : ResolutionContext) (d : List Seg)
    (_hres : allAbsolute (transformDoc (some locate) ctx d).1 = true) :
    renderDoc (transformDoc none ctx2 (transformDoc (some locate) ctx d).1).1 =
      renderDoc (transformDoc (some locate) ctx d).1 := by
  rw [transformDoc_none]

/-- Witness for C9 on a one-token document whose token is a protocol URL. -/
theorem claim_C9_witness :
    allAbsolute (transformDoc (some constLookup) okResolutionCtx
      [Seg.url ⟨1, 0⟩ ⟨"http://cdn/a.png", true⟩]).1 = true ∧
    renderDoc (transformDoc none okResolutionCtx (transformDoc (some constLookup)
      okResolutionCtx [Seg.url ⟨1, 0⟩ ⟨"http://cdn/a.png", true⟩]).1).1 =
      renderDoc (transformDoc (some constLookup) okResolutionCtx
        [Seg.url ⟨1, 0⟩ ⟨"http://cdn/a.png", true⟩]).1 :=
  ⟨by decide,
   claim_C9 constLookup okResolutionCtx okResolutionCtx
     [Seg.url ⟨1, 0⟩ ⟨"http://cdn/a.png", true⟩] (by decide)⟩

/-- Claim C10: a relative loader context (beginning with a dot) is reported
as a critical webpack misconfiguration through the error channel -- for
every option assignment, in particular even under `silent` -- and the
original content is returned unchanged; the outcome does not depend on the
environment, the options, or the supplied source-map. -/
theorem claim_C10 (env : Env) (ctx : LoaderCtx) (opts : Options) (content : String)
    (sm : Option SMInput) (h : startsWithDot ctx.context = true) :
    runLoader env ctx opts content sm =
      Outcome.done content none [⟨Severity.error, msgContextRelative⟩] := by
  simp [runLoader, h, emitDiags]

/-- Witness for C10 with `silent` set. -/
theorem claim_C10_witness :
    startsWithDot (LoaderCtx.mk "./rel" "x").context = true ∧
    runLoader okEnv ⟨"./rel", "x"⟩ { okOpts with silent := true } "body" none =
      Outcome.done "body" none [⟨Severity.error, msgContextRelative⟩] :=
  ⟨by decide,
   claim_C10 okEnv ⟨"./rel", "x"⟩ { okOpts with silent := true } "body" none (by decide)⟩

/-- Claim C6 (amended): a non-default `attempts` value is rejected as a
fatal misconfiguration before any processing begins when `join` is left as
the default join function -- not, as the claim states, alongside a custom
join function, with which the combination is accepted.  The outcome is
independent of the environment and the supplied source-map, and the
original content is returned unchanged. -/
theorem claim_C6_amended (env : Env) (ctx : LoaderCtx) (opts : Options) (content : String)
    (sm : Option SMInput) (hctx : startsWithDot ctx.context = false)
    (hj : opts.join = JoinOpt.default) (ha : opts.attempts ≠ 1) :
    runLoader env ctx opts content sm =
      Outcome.done content none [⟨Severity.error, msgAttempts⟩] := by
  simp [runLoader, hctx, hj, ha, emitDiags]

/-- Counterexample for C6 as stated: with a custom join function and the
deprecated `attempts` option set to a non-default value, the loader does
not reject the combination -- processing proceeds, the engine rewrites the
content, and no diagnostic at all is emitted. -/
theorem claim_C6_counterexample :
    ({ okOpts with join := JoinOpt.custom 0, attempts := 2 } : Options).attempts ≠ 1 ∧
    ({ okOpts with join := JoinOpt.custom 0, attempts := 2 } : Options).join ≠ JoinOpt.default ∧
    runLoader rewriteEnv okCtx { okOpts with join := JoinOpt.custom 0, attempts := 2 }
      "orig" none = Outcome.done "TRANSFORMED" none [] :=
  ⟨by decide, by decide, by decide⟩

/-- Witness for the amended C6. -/
theorem claim_C6_witness :
    startsWithDot okCtx.context = false ∧
    ({ okOpts with attempts := 2 } : Options).join = JoinOpt.default ∧
    ({ okOpts with attempts := 2 } : Options).attempts ≠ 1 ∧
    runLoader rewriteEnv okCtx { okOpts with attempts := 2 } "orig" none =
      Outcome.done "orig" none [⟨Severity.error, msgAttempts⟩] :=
  ⟨by decide, by decide, by decide,
   claim_C6_amended rewriteEnv okCtx { okOpts with attempts := 2 } "orig" none
     (by decide) (by decide) (by decide)⟩

/-- Claim C1 (amended): a misconfiguration (invalid root, non-function
join, invalid engine name, or the disallowed attempts/join combination) is
reported through the error channel regardless of `fail` and `silent`, with
the original content returned unchanged -- provided that any supplied
source-map is processed without incident (parsed, adjusted and indexed
successfully), since the engine-name check only runs after the source-map
block, which can return first with a soft diagnostic or throw. -/
theorem claim_C1_amended (env : Env) (ctx : LoaderCtx) (opts : Options) (content : String)
    (sm : Option SMInput) (hmis : isMisconfiguration env opts = true)
    (hsm : smStageOk env opts content sm = true) :
    ∃ m, runLoader env ctx opts content sm =
      Outcome.done content none [⟨Severity.error, m⟩] := by
  cases hctx : startsWithDot ctx.context with
  | true => exact ⟨msgContextRelative, by simp [runLoader, hctx, emitDiags]⟩
  | false =>
    cases h2 : (opts.join == JoinOpt.default && opts.attempts != 1) with
    | true => exact ⟨msgAttempts, by simp [runLoader, hctx, h2, emitDiags]⟩
    | false =>
      cases h3 : opts.join.isFunction with
      | false => exact ⟨msgJoin, by simp [runLoader, hctx, h2, h3, emitDiags]⟩
      | true =>
        cases h4 : (rootTruthy opts.root && !rootValid env opts.root) with
        | true => exact ⟨msgRoot, by simp [runLoader, hctx, h2, h3, h4, emitDiags]⟩
        | false =>
          simp only [isMisconfiguration, h2, h3, h4, Bool.false_or, Bool.or_false,
            Bool.not_true, Bool.or_eq_true, Bool.not_eq_true'] at hmis
          rcases hst : smStage env opts content sm with out | absMap
          · rw [smStageOk, hst] at hsm; simp at hsm
          · refine ⟨msgEngine, ?_⟩
            simp [runLoader, hctx, h2, h3, h4, hst, hmis, emitDiags]

/-- Counterexample for C1 as stated: an invalid engine name is a
misconfiguration, yet when the supplied source-map is an unparseable string
the loader returns first from the source-map block; under `silent` no
diagnostic at all is emitted, so no fatal error is ever reported. -/
theorem claim_C1_counterexample :
    isMisconfiguration badEngineEnv { okOpts with silent := true, engine := "bogus" } = true ∧
    runLoader badEngineEnv okCtx { okOpts with silent := true, engine := "bogus" }
      "body" (some (.str "not json")) = Outcome.done "body" none [] :=
  ⟨by decide, by decide⟩

/-- Witness for the amended C1: an invalid root directory with `silent`
set. -/
theorem claim_C1_witness :
    isMisconfiguration badRootEnv { okOpts with root := some "/nope", silent := true } = true ∧
    smStageOk badRootEnv { okOpts with root := some "/nope", silent := true } "body" none = true ∧
    ∃ m, runLoader badRootEnv okCtx { okOpts with root := some "/nope", silent := true }
      "body" none = Outcome.done "body" none [⟨Severity.error, m⟩] :=
  ⟨by decide, by decide,
   claim_C1_amended badRootEnv okCtx { okOpts with root := some "/nope", silent := true }
     "body" none (by decide) (by decide)⟩

/-- Claim C4 (amended): the loader never lets an exception escape its
boundary -- it always completes by delivering some content string --
provided that building the source-map index (`new SourceMapConsumer`, which
has no surrounding try/catch) does not throw on this input, and that any
failure value actually reaching the exception handler during this run is
one it can format (a string, a non-Error value, or an Error whose stack
string has a second line); both provisos are evaluated at the source-map
this run actually produces. -/
theorem claim_C4_amended (env : Env) (ctx : LoaderCtx) (opts : Options) (content : String)
    (sm : Option SMInput) (hsm : smNoThrow env sm = true)
    (heng : engineStageWellFormed env ctx opts content sm = true) :
    (runLoader env ctx opts content sm).isDone = true := by
  unfold runLoader
  split
  · rfl
  · split
    · rfl
    · split
      · rfl
      · split
        · rfl
        · rcases smStage_noThrow env opts content sm hsm with ⟨ds, hstg⟩ | ⟨absMap, hstg⟩
          · rw [hstg]
            rfl
          · unfold engineStageWellFormed at heng
            rw [hstg] at heng
            simp only at heng
            rw [hstg]
            cases hv : validEngine env opts.engine with
            | false => simp [hv, Outcome.isDone]
            | true => simpa [hv] using runEngineStage_isDone env ctx opts content absMap heng

/-- Counterexample for C4 as stated: when `SourceMapConsumer` construction
throws on the adjusted map, the exception escapes the loader (the call has
no try/catch), so no content is delivered at all. -/
theorem claim_C4_counterexample :
    runLoader smcThrowEnv okCtx okOpts "body" (some (.obj ⟨7⟩)) =
      Outcome.thrown "SourceMapConsumer: boom" :=
  by decide

/-- Witness for the amended C4. -/
theorem claim_C4_witness :
    smNoThrow okEnv (some (.obj ⟨3⟩)) = true ∧
    engineStageWellFormed okEnv okCtx okOpts "body" (some (.obj ⟨3⟩)) = true ∧
    (runLoader okEnv okCtx okOpts "body" (some (.obj ⟨3⟩))).isDone = true :=
  ⟨by decide, by decide,
   claim_C4_amended okEnv okCtx okOpts "body" (some (.obj ⟨3⟩)) (by decide) (by decide)⟩

/-- Claim C5 (amended): a string source-map is accepted and parsed as JSON;
when parsing fails, or when the codec rejects the parsed or directly
supplied map, the loader reports a diagnostic with the distinct
`source-map error` label and returns the original content unchanged -- but
the diagnostic follows the standard soft-failure severity rule (error only
under `fail`, suppressed under `silent` without `fail`, warning otherwise)
rather than being unconditionally fatal. -/
theorem claim_C5_amended (env : Env) (ctx : LoaderCtx) (opts : Options) (content : String)
    (sm : SMInput) (msg : String)
    (hpre : preChecksPass env ctx opts = true)
    (hcase : smSoftError env sm msg) :
    runLoader env ctx opts content (some sm) =
      Outcome.done content none
        (if opts.fail then [⟨Severity.error, msg⟩]
         else if opts.silent then [] else [⟨Severity.warning, msg⟩]) := by
  have h := hpre
  simp only [preChecksPass, Bool.and_eq_true, Bool.not_eq_true'] at h
  obtain ⟨⟨⟨h1, h2⟩, h3⟩, h4⟩ := h
  have main : runLoader env ctx opts content (some sm) =
      Outcome.done content none (emitDiags opts false msg) := by
    rcases hcase with ⟨s, hstr, hs, hp, hmsg⟩ | ⟨m, emsg, hsrc, hadj, hmsg⟩
    · subst hstr
      subst hmsg
      have hsb : (s == "") = false := by simpa using hs
      simp [runLoader, smStage, h1, h2, h3, h4, hsb, hp]
    · subst hmsg
      rcases hsrc with hobj | ⟨s, hstr, hs, hp⟩
      · subst hobj
        simp [runLoader, smStage, smAdjust, h1, h2, h3, h4, hadj]
      · subst hstr
        have hsb : (s == "") = false := by simpa using hs
        simp [runLoader, smStage, smAdjust, h1, h2, h3, h4, hsb, hp, hadj]
  rw [main]
  cases hf : opts.fail with
  | true => simp [emitDiags, hf]
  | false =>
    cases hsl : opts.silent with
    | true => simp [emitDiags, hf, hsl]
    | false => simp [emitDiags, hf, hsl]

/-- Counterexample for C5 as stated: with default severity options an
unparseable string source-map produces a warning, not a fatal error. -/
theorem claim_C5_counterexample :
    runLoader jsonFailEnv okCtx okOpts "body" (some (.str "junk")) =
      Outcome.done "body" none [⟨Severity.warning, msgParse⟩] :=
  by decide

/-- Witness for the amended C5, exercising the codec-rejection case with an
object map in the `fail` configuration where the diagnostic is escalated to
the error channel (the counterexample exercises the parse-failure case). -/
theorem claim_C5_witness :
    preChecksPass adjustFailEnv okCtx { okOpts with fail := true } = true ∧
    smSoftError adjustFailEnv (.obj ⟨4⟩) (excMessage "source-map error" ["codec rejected map"]) ∧
    runLoader adjustFailEnv okCtx { okOpts with fail := true } "body" (some (.obj ⟨4⟩)) =
      Outcome.done "body" none
        (if ({ okOpts with fail := true } : Options).fail then
           [⟨Severity.error, excMessage "source-map error" ["codec rejected map"]⟩]
         else if ({ okOpts with fail := true } : Options).silent then []
         else [⟨Severity.warning, excMessage "source-map error" ["codec rejected map"]⟩]) :=
  ⟨by decide,
   Or.inr ⟨⟨4⟩, "codec rejected map", Or.inl rfl, rfl, rfl⟩,
   claim_C5_amended adjustFailEnv okCtx { okOpts with fail := true } "body" (.obj ⟨4⟩)
     (excMessage "source-map error" ["codec rejected map"]) (by decide)
     (Or.inr ⟨⟨4⟩, "codec rejected map", Or.inl rfl, rfl, rfl⟩)⟩

/-- Claim C7 (amended): when the CSS engine rejects, the failure is soft at
the document level -- the original input content is delivered (no partial
transform) and the failure is reported as a warning by default, as an error
under `fail`, and not at all under `silent` without `fail` -- provided the
rejection value is one the exception handler can format without itself
throwing (a string, a non-Error value, or an Error whose stack has a second
line). -/
theorem claim_C7_amended (env : Env) (ctx : LoaderCtx) (opts : Options) (content : String)
    (sm : Option SMInput) (absMap : Option SMap) (e : ExcVal) (rest : List String)
    (hpre : preChecksPass env ctx opts = true)
    (hstg : smStage env opts content sm = .ok absMap)
    (heng : validEngine env opts.engine = true)
    (hfail : env.engine ⟨ctx.resourcePath, content, opts.sourceMap, absMap⟩ = .error e)
    (hrest : formatRest e = .ok rest) :
    runLoader env ctx opts content sm =
      Outcome.done content none
        (if opts.fail then [⟨Severity.error, excMessage "Error in CSS" rest⟩]
         else if opts.silent then []
         else [⟨Severity.warning, excMessage "Error in CSS" rest⟩]) := by
  have h := hpre
  simp only [preChecksPass, Bool.and_eq_true, Bool.not_eq_true'] at h
  obtain ⟨⟨⟨h1, h2⟩, h3⟩, h4⟩ := h
  simp only [runLoader, h1, h2, h3, h4, hstg, heng, Bool.false_eq_true, if_false,
    Bool.not_true, Bool.not_eq_true']
  unfold runEngineStage
  rw [hfail]
  simp only [onFailure, handleException, hrest]
  cases hf : opts.fail with
  | true => simp [emitDiags, hf]
  | false =>
    cases hsl : opts.silent with
    | true => simp [emitDiags, hf, hsl]
    | false => simp [emitDiags, hf, hsl]

/-- Counterexample for C7 as stated: when the engine rejects with an Error
whose stack string has no second line, the exception handler itself throws
while formatting it, so the original content is never delivered and nothing
is reported. -/
theorem claim_C7_counterexample :
    runLoader badStackEnv okCtx okOpts "body" none =
      Outcome.thrown "TypeError: Cannot read properties of undefined (reading 'trim')" :=
  by decide

/-- Witness for the amended C7, with default severity options: the engine
rejection surfaces as a warning and the original content is delivered. -/
theorem claim_C7_witness :
    preChecksPass engineFailEnv okCtx okOpts = true ∧
    smStage engineFailEnv okOpts "body" none = .ok none ∧
    validEngine engineFailEnv okOpts.engine = true ∧
    engineFailEnv.engine ⟨okCtx.resourcePath, "body", okOpts.sourceMap, none⟩ =
      .error (.str "engine blew up") ∧
    formatRest (.str "engine blew up") = .ok ["engine blew up"] ∧
    runLoader engineFailEnv okCtx okOpts "body" none =
      Outcome.done "body" none
        (if okOpts.fail then [⟨Severity.error, excMessage "Error in CSS" ["engine blew up"]⟩]
         else if okOpts.silent then []
         else [⟨Severity.warning, excMessage "Error in CSS" ["engine blew up"]⟩]) :=
  ⟨by decide, rfl, by decide, rfl, rfl,
   claim_C7_amended engineFailEnv okCtx okOpts "body" none none (.str "engine blew up")
     ["engine blew up"] (by decide) rfl (by decide) rfl rfl⟩

/-- Claim C8: on successful completion, when an output source-map was
requested the loader delivers the reworked content together with the map
adjusted by the codec into source-relative form, and no diagnostics; when
no output map was requested it delivers the reworked content alone. -/
theorem claim_C8 (env : Env) (ctx : LoaderCtx) (opts : Options) (content : String)
    (sm : Option SMInput) (absMap : Option SMap) (r : Reworked) (fm : SMap)
    (hpre : preChecksPass env ctx opts = true)
    (hstg : smStage env opts content sm = .ok absMap)
    (heng : validEngine env opts.engine = true)
    (hok : env.engine ⟨ctx.resourcePath, content, opts.sourceMap, absMap⟩ = .ok r)
    (hadj : opts.sourceMap = true → env.adjustRel r.map = .ok fm) :
    runLoader env ctx opts content sm =
      Outcome.done r.content (if opts.sourceMap then some fm else none) [] := by
  have h := hpre
  simp only [preChecksPass, Bool.and_eq_true, Bool.not_eq_true'] at h
  obtain ⟨⟨⟨h1, h2⟩, h3⟩, h4⟩ := h
  simp only [runLoader, h1, h2, h3, h4, hstg, heng, Bool.false_eq_true, if_false,
    Bool.not_true, Bool.not_eq_true']
  unfold runEngineStage
  rw [hok]
  cases hs : opts.sourceMap with
  | false => simp [hs]
  | true => simp [hadj hs, hs]

/-- Witness for C8 with an output source-map requested. -/
theorem claim_C8_witness :
    preChecksPass okEnv okCtx { okOpts with sourceMap := true } = true ∧
    smStage okEnv { okOpts with sourceMap := true } "body" (some (.obj ⟨5⟩)) = .ok (some ⟨5⟩) ∧
    validEngine okEnv ({ okOpts with sourceMap := true } : Options).engine = true ∧
    okEnv.engine ⟨okCtx.resourcePath, "body", ({ okOpts with sourceMap := true } : Options).sourceMap,
      some ⟨5⟩⟩ = .ok ⟨"body", some ⟨1⟩⟩ ∧
    runLoader okEnv okCtx { okOpts with sourceMap := true } "body" (some (.obj ⟨5⟩)) =
      Outcome.done (Reworked.mk "body" (some ⟨1⟩)).content
        (if ({ okOpts with sourceMap := true } : Options).sourceMap then some ⟨2⟩ else none) [] :=
  ⟨by decide, rfl, by decide, rfl,
   claim_C8 okEnv okCtx { okOpts with sourceMap := true } "body" (some (.obj ⟨5⟩))
     (some ⟨5⟩) ⟨"body", some ⟨1⟩⟩ ⟨2⟩ (by decide) rfl (by decide) rfl (fun _ => rfl)⟩
